import Mathlib

/-!
Verification of the AI Crop Doctor mobile client utilities and the
detection contract.

Shallow embedding of:
- src/frontend/utils/cropImages.ts : crop image resolver with a 7-day
  AsyncStorage cache and a Pexels-then-Unsplash fallback chain;
- src/unnamed/part_005 (offlineStorage.ts) : local detection cache;
- src/unnamed/part_003 (analysis screen) : detection client call;
- src/unnamed/part_002 (history screen), src/unnamed/part_001 (weather
  screen), src/frontend/app.config.js : backend URL resolution;
- the backend detection service (backend/server.py, referenced by the
  README but not present under src/), modelled from the spec.

Modelling conventions: AsyncStorage is explicit state (an association
list from string keys to parsed values); every external call (fetch,
storage operation) takes its outcome from an explicit environment; a
thrown JS exception is an Except.error value, and a try/catch wrapper
turns it back into the handler's result; JS string truthiness
(null and the empty string are falsy) is modelled explicitly.
-/

namespace AiCrop

/-! ## AsyncStorage model for the crop image cache (cropImages.ts)

The store maps string keys to already-parsed cache entries (the source
stores `JSON.stringify` of `CachedImage`; all writes in the source are
well-formed, so values are modelled structurally). `setItem` overwrites
the key, `removeItem` deletes it. -/

/-- Interface CachedImage of cropImages.ts: `{ url, timestamp }`. -/
structure CachedImage where
  url : String
  timestamp : Int

abbrev ImageStore := List (String × CachedImage)

def getItem (s : ImageStore) (k : String) : Option CachedImage :=
  (s.find? (fun p => p.1 == k)).map (fun p => p.2)

def setItem (s : ImageStore) (k : String) (v : CachedImage) : ImageStore :=
  (k, v) :: s.filter (fun p => !(p.1 == k))

def removeItem (s : ImageStore) (k : String) : ImageStore :=
  s.filter (fun p => !(p.1 == k))

/-- Outcome of one HTTP fetch against a photo-search provider:
either the fetch (or response.json()) throws, or a response arrives with
an ok-flag and the optional-chained URL of the first result
(`data.photos[0]?.src?.large` for Pexels,
`data.results[0]?.urls?.regular` for Unsplash). -/
inductive FetchOutcome where
  | throws
  | response (ok : Bool) (firstUrl : Option String)

/-- Environment of one resolution: the clock (`Date.now()`), the two
configured API keys, the outcome each provider would return, and
whether each kind of AsyncStorage operation throws. -/
structure Env where
  now : Int
  pexelsKey : String
  unsplashKey : String
  pexelsOutcome : FetchOutcome
  unsplashOutcome : FetchOutcome
  getItemThrows : Bool
  setItemThrows : Bool
  removeItemThrows : Bool

/-- Constant CACHE_EXPIRY_DAYS of cropImages.ts. -/
def CACHE_EXPIRY_DAYS : Int := 7

/-- Key built from the constant CACHE_PREFIX of cropImages.ts:
`crop_image_` ++ cropName. -/
def cacheKey (cropName : String) : String := "crop_image_" ++ cropName

/-- Function isCacheValid of cropImages.ts; `now` is passed explicitly. -/
def isCacheValid (now timestamp : Int) : Bool :=
  now - timestamp < CACHE_EXPIRY_DAYS * 24 * 60 * 60 * 1000

/-- JS truthiness of a string-or-null value: null and "" are falsy. -/
def truthy : Option String → Bool
  | some u => u != ""
  | none => false

/-- Try-block body of getCachedImageUrl (cropImages.ts lines 130-147):
read the entry, return its URL while valid, remove it when expired.
`getItem` and `removeItem` may throw (per the environment). -/
def getCachedImageUrlT (env : Env) (s : ImageStore) (cropName : String) :
    Except Unit (Option String) × ImageStore :=
  if env.getItemThrows then (.error (), s)
  else
    match getItem s (cacheKey cropName) with
    | none => (.ok none, s)
    | some c =>
      if isCacheValid env.now c.timestamp then (.ok (some c.url), s)
      else if env.removeItemThrows then (.error (), s)
      else (.ok none, removeItem s (cacheKey cropName))

/-- Function getCachedImageUrl of cropImages.ts: the catch handler logs
the error and returns null. -/
def getCachedImageUrl (env : Env) (s : ImageStore) (cropName : String) :
    Except Unit (Option String) × ImageStore :=
  match getCachedImageUrlT env s cropName with
  | (.error _, s1) => (.ok none, s1)
  | (.ok r, s1) => (.ok r, s1)

/-- Try-block body of cacheImageUrl (cropImages.ts lines 150-160):
write `{url, timestamp: Date.now()}` under the crop's key. -/
def cacheImageUrlT (env : Env) (s : ImageStore) (cropName url : String) :
    Except Unit Unit × ImageStore :=
  if env.setItemThrows then (.error (), s)
  else (.ok (), setItem s (cacheKey cropName) ⟨url, env.now⟩)

/-- Function cacheImageUrl of cropImages.ts: the catch handler logs the
error and returns normally. -/
def cacheImageUrl (env : Env) (s : ImageStore) (cropName url : String) :
    Except Unit Unit × ImageStore :=
  match cacheImageUrlT env s cropName url with
  | (.error _, s1) => (.ok (), s1)
  | (.ok _, s1) => (.ok (), s1)

/-- Placeholder value of the Pexels key in cropImages.ts line 213. -/
def PEXELS_KEY_PLACEHOLDER : String := "YOUR_PEXELS_API_KEY"

/-- Placeholder value of the Unsplash key in cropImages.ts line 170. -/
def UNSPLASH_KEY_PLACEHOLDER : String := "YOUR_UNSPLASH_ACCESS_KEY"

/-- Try-block body of fetchCropImageFromPexels (cropImages.ts lines
206-246): check the cache, bail out when the key is unconfigured,
fetch, throw on a non-ok response, take the first result's large URL
defaulted to "", cache it when non-empty. The third component counts
network (fetch) calls issued. -/
def fetchCropImageFromPexelsT (env : Env) (s : ImageStore) (cropName : String) :
    Except Unit String × ImageStore × Nat :=
  let l := getCachedImageUrl env s cropName
  match l.1 with
  | .error e => (.error e, l.2, 0)
  | .ok cachedUrl =>
    if truthy cachedUrl then (.ok (cachedUrl.getD ""), l.2, 0)
    else if env.pexelsKey == PEXELS_KEY_PLACEHOLDER then (.ok "", l.2, 0)
    else
      match env.pexelsOutcome with
      | .throws => (.error (), l.2, 1)
      | .response ok firstUrl =>
        if ok then
          let imageUrl := firstUrl.getD ""
          if imageUrl != "" then
            let c := cacheImageUrl env l.2 cropName imageUrl
            match c.1 with
            | .error e => (.error e, c.2, 1)
            | .ok _ => (.ok imageUrl, c.2, 1)
          else (.ok imageUrl, l.2, 1)
        else (.error (), l.2, 1)

/-- Function fetchCropImageFromPexels of cropImages.ts: the catch
handler logs the error and returns "". -/
def fetchCropImageFromPexels (env : Env) (s : ImageStore) (cropName : String) :
    Except Unit String × ImageStore × Nat :=
  match fetchCropImageFromPexelsT env s cropName with
  | (.error _, s1, n) => (.ok "", s1, n)
  | (.ok u, s1, n) => (.ok u, s1, n)

/-- Try-block body of fetchCropImageFromUnsplash (cropImages.ts lines
163-203); same shape as the Pexels fetcher with the Unsplash key and
`data.results[0]?.urls?.regular`. -/
def fetchCropImageFromUnsplashT (env : Env) (s : ImageStore) (cropName : String) :
    Except Unit String × ImageStore × Nat :=
  let l := getCachedImageUrl env s cropName
  match l.1 with
  | .error e => (.error e, l.2, 0)
  | .ok cachedUrl =>
    if truthy cachedUrl then (.ok (cachedUrl.getD ""), l.2, 0)
    else if env.unsplashKey == UNSPLASH_KEY_PLACEHOLDER then (.ok "", l.2, 0)
    else
      match env.unsplashOutcome with
      | .throws => (.error (), l.2, 1)
      | .response ok firstUrl =>
        if ok then
          let imageUrl := firstUrl.getD ""
          if imageUrl != "" then
            let c := cacheImageUrl env l.2 cropName imageUrl
            match c.1 with
            | .error e => (.error e, c.2, 1)
            | .ok _ => (.ok imageUrl, c.2, 1)
          else (.ok imageUrl, l.2, 1)
        else (.error (), l.2, 1)

/-- Function fetchCropImageFromUnsplash of cropImages.ts: the catch
handler logs the error and returns "". -/
def fetchCropImageFromUnsplash (env : Env) (s : ImageStore) (cropName : String) :
    Except Unit String × ImageStore × Nat :=
  match fetchCropImageFromUnsplashT env s cropName with
  | (.error _, s1, n) => (.ok "", s1, n)
  | (.ok u, s1, n) => (.ok u, s1, n)

/-- Function getCropImage of cropImages.ts (lines 249-264): cache, then
Pexels, then Unsplash, then "". It has no try/catch of its own, so a
callee exception would propagate (`.error`). The third component counts
network calls issued. -/
def getCropImage (env : Env) (s : ImageStore) (cropName : String) :
    Except Unit String × ImageStore × Nat :=
  let l := getCachedImageUrl env s cropName
  match l.1 with
  | .error e => (.error e, l.2, 0)
  | .ok cachedUrl =>
    if truthy cachedUrl then (.ok (cachedUrl.getD ""), l.2, 0)
    else
      let p := fetchCropImageFromPexels env l.2 cropName
      match p.1 with
      | .error e => (.error e, p.2.1, p.2.2)
      | .ok pexelsUrl =>
        if pexelsUrl != "" then (.ok pexelsUrl, p.2.1, p.2.2)
        else
          let u := fetchCropImageFromUnsplash env p.2.1 cropName
          match u.1 with
          | .error e => (.error e, u.2.1, p.2.2 + u.2.2)
          | .ok unsplashUrl =>
            if unsplashUrl != "" then (.ok unsplashUrl, u.2.1, p.2.2 + u.2.2)
            else (.ok "", u.2.1, p.2.2 + u.2.2)

/-! ## Reference functions following the words of the spec (section 4.2)

These are the spec side of the refinement claims: the result of one
provider attempt in isolation, and the resolution chain of the spec. -/

/-- Result of the provider-A (Pexels) attempt as the spec words it:
empty when unconfigured, when the call fails, or when it returns no
result; otherwise the first result's large URL. -/
def pexelsAttemptSpec (env : Env) : String :=
  if env.pexelsKey == PEXELS_KEY_PLACEHOLDER then ""
  else
    match env.pexelsOutcome with
    | .throws => ""
    | .response ok firstUrl => if ok then firstUrl.getD "" else ""

/-- Result of the provider-B (Unsplash) attempt as the spec words it. -/
def unsplashAttemptSpec (env : Env) : String :=
  if env.unsplashKey == UNSPLASH_KEY_PLACEHOLDER then ""
  else
    match env.unsplashOutcome with
    | .throws => ""
    | .response ok firstUrl => if ok then firstUrl.getD "" else ""

/-- Provider fallback of the spec: first non-empty of attempt A then
attempt B, else "". -/
def fallbackSpec (env : Env) : String :=
  if pexelsAttemptSpec env != "" then pexelsAttemptSpec env
  else if unsplashAttemptSpec env != "" then unsplashAttemptSpec env
  else ""

/-- Resolution chain of the spec (section 4.2): cached URL while the
entry is younger than 7 days, otherwise the provider fallback. -/
def resolveImageSpec (env : Env) (s : ImageStore) (cropName : String) : String :=
  match getItem s (cacheKey cropName) with
  | some c =>
    if isCacheValid env.now c.timestamp then c.url else fallbackSpec env
  | none => fallbackSpec env

/-- Network calls issued by the full fallback chain on a cache miss:
one per configured provider actually tried. -/
def fallbackCalls (env : Env) : Nat :=
  (if env.pexelsKey == PEXELS_KEY_PLACEHOLDER then 0 else 1)
  + (if pexelsAttemptSpec env != "" then 0
     else if env.unsplashKey == UNSPLASH_KEY_PLACEHOLDER then 0 else 1)

/-- Store after the full fallback chain ran from a cache miss at `s`:
the successful attempt's URL is written (when the write succeeds),
otherwise the store is untouched. -/
def fallbackStoreSpec (env : Env) (s : ImageStore) (cropName : String) : ImageStore :=
  if pexelsAttemptSpec env != "" then
    (if env.setItemThrows then s
     else setItem s (cacheKey cropName) ⟨pexelsAttemptSpec env, env.now⟩)
  else if unsplashAttemptSpec env != "" then
    (if env.setItemThrows then s
     else setItem s (cacheKey cropName) ⟨unsplashAttemptSpec env, env.now⟩)
  else s

/-- Invariant of the image cache: no stored entry has an empty URL. -/
def storeWF (s : ImageStore) : Prop := ∀ p ∈ s, p.2.url ≠ ""

/-- A stable cache miss: looking the crop up yields a falsy value and
leaves the store unchanged (so a repeated lookup behaves the same). -/
def NoHitAt (env : Env) (s : ImageStore) (cropName : String) : Prop :=
  ∃ r, getCachedImageUrl env s cropName = (.ok r, s) ∧ truthy r = false

/-! ## Local detection cache (src/unnamed/part_005, offlineStorage.ts)

The AsyncStorage item under KEYS.CACHED_DETECTIONS is modelled as an
optional stored list (`none` = key absent); detections are opaque. -/

namespace OfflineStorage

/-- Method getCachedDetections of OfflineStorage: parse the stored
item, defaulting to the empty list when absent. -/
def getCachedDetections {D : Type} (s : Option (List D)) : List D := s.getD []

/-- Method addCachedDetection of OfflineStorage: read the list, unshift
the new detection, keep only the first 50 (`slice(0, 50)`), store. -/
def addCachedDetection {D : Type} (s : Option (List D)) (d : D) : Option (List D) :=
  some ((d :: getCachedDetections s).take 50)

/-- A sequence of addCachedDetection calls, oldest first. -/
def recordAll {D : Type} (s : Option (List D)) (ds : List D) : Option (List D) :=
  ds.foldl addCachedDetection s

end OfflineStorage

/-! ## Backend detection service (modelled from the spec)

backend/server.py is referenced by the README but is not under src/;
the parsing of the vision model's structured response is modelled from
spec section 4.1 and section 6. -/

namespace Backend

/-- Modelled from the spec: the structured response the vision model
returns to the Backend Detection Service; any field may be missing. -/
structure RawModelResponse where
  disease_name : Option String
  confidence_score : Option Rat
  treatment_steps : Option (List String)
  fertilizer_suggestions : Option (List String)
  prevention_tips : Option (List String)

/-- Modelled from the spec: the advice-carrying part of a
DetectionRecord as returned by `POST /api/detect-disease`; the three
advice lists are always present. -/
structure DetectionRecord where
  disease_name : String
  confidence_score : Rat
  treatment_steps : List String
  fertilizer_suggestions : List String
  prevention_tips : List String

/-- Modelled from the spec (section 4.1): the service parses the
model's structured response; the required scalar fields must be
present, and each missing advice list is defaulted to empty rather
than failing the whole request. -/
def parseModelResponse (raw : RawModelResponse) : Option DetectionRecord :=
  match raw.disease_name, raw.confidence_score with
  | some dn, some cs =>
    some ⟨dn, cs, raw.treatment_steps.getD [], raw.fertilizer_suggestions.getD [],
          raw.prevention_tips.getD []⟩
  | _, _ => none

end Backend

/-! ## Detection client (src/unnamed/part_003, analysis screen) -/

namespace AnalysisScreen

/-- Interface AnalysisResult of the analysis screen. -/
structure AnalysisResult where
  id : String
  disease_name : String
  confidence_score : Rat
  crop_type : String
  treatment_steps : List String
  fertilizer_suggestions : List String
  prevention_tips : List String
  detection_date : String
  image_thumbnail : String

/-- The timeout (in ms) passed to axios.post in analyzeImage. -/
def ANALYZE_TIMEOUT_MS : Nat := 60000

/-- Component state touched by analyzeImage: the three useState hooks
loading / result / error. -/
structure AnalysisState where
  loading : Bool
  result : Option AnalysisResult
  error : String

/-- Outcome of the axios.post call: resolution with `response.data`
(null or an object), or rejection (timeout, transport failure, HTTP
error) carrying `err.response?.data?.detail` and `err.message`. -/
inductive DetectOutcome where
  | success (data : Option AnalysisResult)
  | failure (detail : Option String) (message : String)

/-- The JS fallback chain
`err.response?.data?.detail || err.message || 'Failed to analyze image'`. -/
def errorMessage (detail : Option String) (message : String) : String :=
  match detail with
  | some d =>
    if d != "" then d
    else if message != "" then message else "Failed to analyze image"
  | none => if message != "" then message else "Failed to analyze image"

/-- Function analyzeImage of the analysis screen: it sets loading and
error, posts, stores the result on success, stores a user-facing error
message on failure, and never touches any persisted storage (the
abstract `stor` is returned unchanged on every path). A null
`response.data` raises `No data received`, which the catch turns into
the error message. -/
def analyzeImage {σ : Type} (o : DetectOutcome) (st : AnalysisState) (stor : σ) :
    AnalysisState × σ :=
  match o with
  | .success (some d) => (⟨false, some d, ""⟩, stor)
  | .success none => (⟨false, st.result, errorMessage none "No data received"⟩, stor)
  | .failure detail msg => (⟨false, st.result, errorMessage detail msg⟩, stor)

end AnalysisScreen

/-! ## Backend URL resolution (history / analysis / weather screens,
app.config.js) -/

namespace Config

/-- JS `a || b` on an optional string: null and "" fall through. -/
def jsOrStr (a : Option String) (b : String) : String :=
  match a with
  | some s => if s != "" then s else b
  | none => b

/-- The local default used by app.config.js and the screens. -/
def DEFAULT_BACKEND_URL : String := "http://127.0.0.1:8000"

/-- The configuration surface a screen module sees at load time. -/
structure ClientEnv where
  expoExtraBackendUrl : Option String
  processEnvBackendUrl : Option String

/-- BACKEND_URL of the analysis screen (src/unnamed/part_003):
`Constants.expoConfig?.extra?... || process.env... || 'http://127.0.0.1:8000'`. -/
def analysisBackendUrl (e : ClientEnv) : String :=
  jsOrStr e.expoExtraBackendUrl (jsOrStr e.processEnvBackendUrl DEFAULT_BACKEND_URL)

/-- BACKEND_URL of the weather screen (src/unnamed/part_001): the same
three-step fallback chain. -/
def weatherBackendUrl (e : ClientEnv) : String :=
  jsOrStr e.expoExtraBackendUrl (jsOrStr e.processEnvBackendUrl DEFAULT_BACKEND_URL)

/-- BACKEND_URL of the history screen (src/unnamed/part_002): reads
only process.env and throws at module load when it is not set. -/
def historyBackendUrl (e : ClientEnv) : Except String String :=
  match e.processEnvBackendUrl with
  | some s =>
    if s != "" then .ok s
    else .error "EXPO_PUBLIC_BACKEND_URL is not configured"
  | none => .error "EXPO_PUBLIC_BACKEND_URL is not configured"

/-- extra.EXPO_PUBLIC_BACKEND_URL injected by app.config.js:
`process.env.EXPO_PUBLIC_BACKEND_URL || 'http://127.0.0.1:8000'`. -/
def appConfigExtraBackendUrl (processEnv : Option String) : String :=
  jsOrStr processEnv DEFAULT_BACKEND_URL

end Config

end AiCrop

/-! ## Concrete sample data used by the witness theorems -/

namespace AiCrop

/-- Sample environment: Pexels configured and succeeding, Unsplash
unconfigured, reliable storage, clock at 0. -/
def envPexelsOk : Env :=
  ⟨0, "pexels-key-123", UNSPLASH_KEY_PLACEHOLDER,
   .response true (some "https://images.pexels.com/rice.jpg"), .throws,
   false, false, false⟩

/-- Sample environment: both providers unconfigured, reliable storage,
clock at 0. -/
def envUnconfigured : Env :=
  ⟨0, PEXELS_KEY_PLACEHOLDER, UNSPLASH_KEY_PLACEHOLDER, .throws, .throws,
   false, false, false⟩

/-- Sample environment: both providers unconfigured, clock exactly 7
days (604800000 ms) after the epoch. -/
def envSevenDays : Env :=
  ⟨604800000, PEXELS_KEY_PLACEHOLDER, UNSPLASH_KEY_PLACEHOLDER, .throws, .throws,
   false, false, false⟩

/-- Sample store holding one entry for Rice fetched at time 0. -/
def riceStore : ImageStore :=
  [(cacheKey "Rice", ⟨"https://images.pexels.com/rice.jpg", 0⟩)]

end AiCrop


/-! ## Lemmas about the store operations and the cache invariant -/

namespace AiCrop

lemma getItem_setItem_self (s : ImageStore) (k : String) (v : CachedImage) :
    getItem (setItem s k v) k = some v := by
  simp [getItem, setItem, List.find?]

lemma getItem_removeItem_self (s : ImageStore) (k : String) :
    getItem (removeItem s k) k = none := by
  unfold getItem removeItem
  have hf : List.find? (fun p => p.1 == k) (s.filter fun p => !(p.1 == k)) = none := by
    rw [List.find?_eq_none]
    intro p hp
    have h2 := List.of_mem_filter hp
    simp only [Bool.not_eq_true'] at h2
    simp [h2]
  rw [hf]
  rfl

lemma exists_mem_of_getItem (s : ImageStore) (k : String) (c : CachedImage)
    (h : getItem s k = some c) : ∃ p ∈ s, p.2 = c := by
  unfold getItem at h
  cases hf : List.find? (fun p => p.1 == k) s with
  | none => rw [hf] at h; simp at h
  | some p =>
    rw [hf] at h
    simp only [Option.map_some'] at h
    exact ⟨p, List.mem_of_find?_eq_some hf, Option.some.inj h⟩

lemma storeWF_removeItem (s : ImageStore) (k : String) (h : storeWF s) :
    storeWF (removeItem s k) := by
  intro p hp
  exact h p (List.mem_of_mem_filter hp)

lemma storeWF_setItem (s : ImageStore) (k : String) (v : CachedImage)
    (h : storeWF s) (hv : v.url ≠ "") : storeWF (setItem s k v) := by
  intro p hp
  rcases List.mem_cons.mp hp with h1 | h2
  · rw [h1]; exact hv
  · exact h p (List.mem_of_mem_filter h2)

lemma url_ne_empty_of_getItem (s : ImageStore) (k : String) (c : CachedImage)
    (hwf : storeWF s) (h : getItem s k = some c) : c.url ≠ "" := by
  obtain ⟨p, hp, hpc⟩ := exists_mem_of_getItem s k c h
  rw [← hpc]
  exact hwf p hp

end AiCrop

/-! ## Characterization of getCachedImageUrl -/

namespace AiCrop

lemma gciu_getThrows (env : Env) (s : ImageStore) (cropName : String)
    (hg : env.getItemThrows = true) :
    getCachedImageUrl env s cropName = (.ok none, s) := by
  simp [getCachedImageUrl, getCachedImageUrlT, hg]

lemma gciu_none (env : Env) (s : ImageStore) (cropName : String)
    (hg : env.getItemThrows = false) (h : getItem s (cacheKey cropName) = none) :
    getCachedImageUrl env s cropName = (.ok none, s) := by
  simp [getCachedImageUrl, getCachedImageUrlT, hg, h]

lemma gciu_valid (env : Env) (s : ImageStore) (cropName : String) (c : CachedImage)
    (hg : env.getItemThrows = false) (h : getItem s (cacheKey cropName) = some c)
    (hv : isCacheValid env.now c.timestamp = true) :
    getCachedImageUrl env s cropName = (.ok (some c.url), s) := by
  simp [getCachedImageUrl, getCachedImageUrlT, hg, h, hv]

lemma gciu_expired_keep (env : Env) (s : ImageStore) (cropName : String) (c : CachedImage)
    (hg : env.getItemThrows = false) (h : getItem s (cacheKey cropName) = some c)
    (hv : isCacheValid env.now c.timestamp = false) (hr : env.removeItemThrows = true) :
    getCachedImageUrl env s cropName = (.ok none, s) := by
  simp [getCachedImageUrl, getCachedImageUrlT, hg, h, hv, hr]

lemma gciu_expired_remove (env : Env) (s : ImageStore) (cropName : String) (c : CachedImage)
    (hg : env.getItemThrows = false) (h : getItem s (cacheKey cropName) = some c)
    (hv : isCacheValid env.now c.timestamp = false) (hr : env.removeItemThrows = false) :
    getCachedImageUrl env s cropName = (.ok none, removeItem s (cacheKey cropName)) := by
  simp [getCachedImageUrl, getCachedImageUrlT, hg, h, hv, hr]

lemma gciu_ok (env : Env) (s : ImageStore) (cropName : String) :
    ∃ r s1, getCachedImageUrl env s cropName = (.ok r, s1) := by
  unfold getCachedImageUrl
  rcases h : getCachedImageUrlT env s cropName with ⟨e, s1⟩
  cases e <;> exact ⟨_, _, rfl⟩

/-- Store produced by getCachedImageUrl: the input store or the input
store with the crop's entry removed. -/
lemma gciu_store (env : Env) (s : ImageStore) (cropName : String) :
    (getCachedImageUrl env s cropName).2 = s ∨
      (getCachedImageUrl env s cropName).2 = removeItem s (cacheKey cropName) := by
  unfold getCachedImageUrl getCachedImageUrlT
  by_cases hg : env.getItemThrows
  · simp [hg]
  · simp only [hg]
    cases h : getItem s (cacheKey cropName) with
    | none => simp
    | some c =>
      by_cases hv : isCacheValid env.now c.timestamp
      · simp [hv]
      · by_cases hr : env.removeItemThrows
        · simp [hv, hr]
        · simp [hv, hr]

lemma storeWF_gciu (env : Env) (s : ImageStore) (cropName : String) (h : storeWF s) :
    storeWF (getCachedImageUrl env s cropName).2 := by
  rcases gciu_store env s cropName with h2 | h2 <;> rw [h2]
  · exact h
  · exact storeWF_removeItem s _ h

end AiCrop

/-! ## Stable cache misses and the provider attempts -/

namespace AiCrop

/-- After any lookup whose result is falsy (with reliable reads), the
resulting store is a stable miss. -/
lemma nohit_after_lookup (env : Env) (s : ImageStore) (cropName : String)
    (r : Option String) (s1 : ImageStore) (hg : env.getItemThrows = false)
    (h : getCachedImageUrl env s cropName = (.ok r, s1)) (htr : truthy r = false) :
    NoHitAt env s1 cropName := by
  cases hi : getItem s (cacheKey cropName) with
  | none =>
    rw [gciu_none env s cropName hg hi] at h
    obtain ⟨h1, h2⟩ := Prod.mk.injEq .. ▸ h
    refine ⟨none, ?_, rfl⟩
    rw [← h2]
    exact gciu_none env s cropName hg hi
  | some c =>
    by_cases hv : isCacheValid env.now c.timestamp
    · rw [gciu_valid env s cropName c hg hi hv] at h
      obtain ⟨h1, h2⟩ := Prod.mk.injEq .. ▸ h
      refine ⟨some c.url, ?_, ?_⟩
      · rw [← h2]
        exact gciu_valid env s cropName c hg hi hv
      · rw [show r = some c.url from by exact_mod_cast (Except.ok.inj h1.symm)] at htr
        exact htr
    · by_cases hr : env.removeItemThrows
      · rw [gciu_expired_keep env s cropName c hg hi (by simpa using hv) hr] at h
        obtain ⟨h1, h2⟩ := Prod.mk.injEq .. ▸ h
        refine ⟨none, ?_, rfl⟩
        rw [← h2]
        exact gciu_expired_keep env s cropName c hg hi (by simpa using hv) hr
      · rw [gciu_expired_remove env s cropName c hg hi (by simpa using hv)
          (by simpa using hr)] at h
        obtain ⟨h1, h2⟩ := Prod.mk.injEq .. ▸ h
        refine ⟨none, ?_, rfl⟩
        rw [← h2]
        exact gciu_none env _ cropName hg (getItem_removeItem_self s (cacheKey cropName))

end AiCrop

namespace AiCrop

/-- On a stable cache miss, the Pexels fetcher returns exactly the
spec's provider-A attempt, writes it back exactly when it is non-empty
and the write does not throw, and issues one network call exactly when
the key is configured. -/
lemma fetchPexels_of_nohit (env : Env) (s : ImageStore) (cropName : String)
    (h : NoHitAt env s cropName) :
    fetchCropImageFromPexels env s cropName =
      (.ok (pexelsAttemptSpec env),
       (if pexelsAttemptSpec env != "" && !env.setItemThrows
        then setItem s (cacheKey cropName) ⟨pexelsAttemptSpec env, env.now⟩ else s),
       (if env.pexelsKey == PEXELS_KEY_PLACEHOLDER then 0 else 1)) := by
  obtain ⟨r, hr, htr⟩ := h
  unfold fetchCropImageFromPexels fetchCropImageFromPexelsT pexelsAttemptSpec
  rw [hr]
  by_cases hk : env.pexelsKey == PEXELS_KEY_PLACEHOLDER
  · simp [htr, hk]
  · cases ho : env.pexelsOutcome with
    | throws => simp [htr, hk]
    | response ok firstUrl =>
      cases ok with
      | false => simp [htr, hk]
      | true =>
        by_cases hi : firstUrl.getD "" != ""
        · by_cases hset : env.setItemThrows
          · simp [htr, hk, hi, hset, cacheImageUrl, cacheImageUrlT]
          · simp [htr, hk, hi, hset, cacheImageUrl, cacheImageUrlT]
        · simp only [Bool.not_eq_true] at hi
          simp [htr, hk, hi]

end AiCrop

namespace AiCrop

/-- On a stable cache miss, the Unsplash fetcher returns exactly the
spec's provider-B attempt, with the same write and call-count
behavior as the Pexels fetcher. -/
lemma fetchUnsplash_of_nohit (env : Env) (s : ImageStore) (cropName : String)
    (h : NoHitAt env s cropName) :
    fetchCropImageFromUnsplash env s cropName =
      (.ok (unsplashAttemptSpec env),
       (if unsplashAttemptSpec env != "" && !env.setItemThrows
        then setItem s (cacheKey cropName) ⟨unsplashAttemptSpec env, env.now⟩ else s),
       (if env.unsplashKey == UNSPLASH_KEY_PLACEHOLDER then 0 else 1)) := by
  obtain ⟨r, hr, htr⟩ := h
  unfold fetchCropImageFromUnsplash fetchCropImageFromUnsplashT unsplashAttemptSpec
  rw [hr]
  by_cases hk : env.unsplashKey == UNSPLASH_KEY_PLACEHOLDER
  · simp [htr, hk]
  · cases ho : env.unsplashOutcome with
    | throws => simp [htr, hk]
    | response ok firstUrl =>
      cases ok with
      | false => simp [htr, hk]
      | true =>
        by_cases hi : firstUrl.getD "" != ""
        · by_cases hset : env.setItemThrows
          · simp [htr, hk, hi, hset, cacheImageUrl, cacheImageUrlT]
          · simp [htr, hk, hi, hset, cacheImageUrl, cacheImageUrlT]
        · simp only [Bool.not_eq_true] at hi
          simp [htr, hk, hi]

/-- On a stable cache miss the whole resolver computes the spec's
provider fallback, with the spec's store update and call count. -/
lemma getCropImage_of_nohit (env : Env) (s : ImageStore) (cropName : String)
    (h : NoHitAt env s cropName) :
    getCropImage env s cropName =
      (.ok (fallbackSpec env), fallbackStoreSpec env s cropName, fallbackCalls env) := by
  obtain ⟨r, hr, htr⟩ := h
  unfold getCropImage
  rw [hr]
  simp only [htr, Bool.false_eq_true, if_false]
  rw [fetchPexels_of_nohit env s cropName ⟨r, hr, htr⟩]
  by_cases hp : pexelsAttemptSpec env != ""
  · simp only [hp, Bool.true_and]
    simp [fallbackSpec, fallbackStoreSpec, fallbackCalls, hp]
    by_cases hset : env.setItemThrows <;> simp [hset]
  · simp only [Bool.not_eq_true] at hp
    have hp2 : pexelsAttemptSpec env = "" := by simpa using hp
    simp only [hp, Bool.false_and, if_false]
    rw [show (if (false : Bool) = true then
        setItem s (cacheKey cropName) ⟨pexelsAttemptSpec env, env.now⟩ else s) = s
      from by simp]
    rw [fetchUnsplash_of_nohit env s cropName ⟨r, hr, htr⟩]
    by_cases hu : unsplashAttemptSpec env != ""
    · simp [fallbackSpec, fallbackStoreSpec, fallbackCalls, hp2, hu]
      by_cases hset : env.setItemThrows <;> simp [hset]
    · simp only [Bool.not_eq_true] at hu
      have hu2 : unsplashAttemptSpec env = "" := by simpa using hu
      simp [fallbackSpec, fallbackStoreSpec, fallbackCalls, hp2, hu2]

end AiCrop

namespace AiCrop

/-- A valid cached entry with a non-empty URL is returned as-is, with
no store change and no network call. -/
lemma getCropImage_hit (env : Env) (s : ImageStore) (cropName : String) (c : CachedImage)
    (hg : env.getItemThrows = false) (hi : getItem s (cacheKey cropName) = some c)
    (hv : isCacheValid env.now c.timestamp = true) (hu : c.url ≠ "") :
    getCropImage env s cropName = (.ok c.url, s, 0) := by
  unfold getCropImage
  rw [gciu_valid env s cropName c hg hi hv]
  simp [truthy, hu]

/-- When the resolver's first lookup comes back falsy and leaves a
stable-miss store, the whole resolver behaves as if started there. -/
lemma getCropImage_restart (env : Env) (s : ImageStore) (cropName : String)
    (r : Option String) (s1 : ImageStore)
    (h : getCachedImageUrl env s cropName = (.ok r, s1)) (htr : truthy r = false)
    (hn : NoHitAt env s1 cropName) :
    getCropImage env s cropName = getCropImage env s1 cropName := by
  obtain ⟨r1, hr1, htr1⟩ := hn
  unfold getCropImage
  rw [h, hr1]
  simp [htr, htr1]

/-- Decomposition of one resolver run (with reliable cache reads):
either a truthy cache hit is returned unchanged, or the run reduces to
the provider fallback from a stable-miss store that is the input store
with at most the crop's expired entry removed. -/
lemma getCropImage_cases (env : Env) (s : ImageStore) (cropName : String)
    (hg : env.getItemThrows = false) :
    (∃ c, getItem s (cacheKey cropName) = some c ∧ isCacheValid env.now c.timestamp = true ∧
       c.url ≠ "" ∧ getCropImage env s cropName = (.ok c.url, s, 0))
    ∨ (∃ s1, (s1 = s ∨ s1 = removeItem s (cacheKey cropName)) ∧ NoHitAt env s1 cropName ∧
       getCropImage env s cropName =
         (.ok (fallbackSpec env), fallbackStoreSpec env s1 cropName, fallbackCalls env)) := by
  cases hi : getItem s (cacheKey cropName) with
  | none =>
    right
    have hl := gciu_none env s cropName hg hi
    have hn := nohit_after_lookup env s cropName none s hg hl rfl
    exact ⟨s, Or.inl rfl, hn, by
      rw [getCropImage_restart env s cropName none s hl rfl hn,
        getCropImage_of_nohit env s cropName hn]⟩
  | some c =>
    by_cases hv : isCacheValid env.now c.timestamp
    · by_cases hu : c.url = ""
      · right
        have hl := gciu_valid env s cropName c hg hi hv
        have htr : truthy (some c.url) = false := by simp [truthy, hu]
        have hn := nohit_after_lookup env s cropName (some c.url) s hg hl htr
        exact ⟨s, Or.inl rfl, hn, by
          rw [getCropImage_restart env s cropName _ s hl htr hn,
            getCropImage_of_nohit env s cropName hn]⟩
      · exact Or.inl ⟨c, rfl, hv, hu, getCropImage_hit env s cropName c hg hi hv hu⟩
    · right
      by_cases hrm : env.removeItemThrows
      · have hl := gciu_expired_keep env s cropName c hg hi (by simpa using hv) hrm
        have hn := nohit_after_lookup env s cropName none s hg hl rfl
        exact ⟨s, Or.inl rfl, hn, by
          rw [getCropImage_restart env s cropName none s hl rfl hn,
            getCropImage_of_nohit env s cropName hn]⟩
      · have hl := gciu_expired_remove env s cropName c hg hi (by simpa using hv)
          (by simpa using hrm)
        have hn := nohit_after_lookup env s cropName none _ hg hl rfl
        exact ⟨removeItem s (cacheKey cropName), Or.inr rfl, hn, by
          rw [getCropImage_restart env s cropName none _ hl rfl hn,
            getCropImage_of_nohit env _ cropName hn]⟩

end AiCrop

/-! ## Totality of the fetchers and preservation of the cache invariant -/

namespace AiCrop

lemma fetchPexels_ok (env : Env) (s : ImageStore) (cropName : String) :
    ∃ u s1 n, fetchCropImageFromPexels env s cropName = (.ok u, s1, n) := by
  unfold fetchCropImageFromPexels
  rcases h : fetchCropImageFromPexelsT env s cropName with ⟨e, s1, n⟩
  cases e <;> exact ⟨_, _, _, rfl⟩

lemma fetchUnsplash_ok (env : Env) (s : ImageStore) (cropName : String) :
    ∃ u s1 n, fetchCropImageFromUnsplash env s cropName = (.ok u, s1, n) := by
  unfold fetchCropImageFromUnsplash
  rcases h : fetchCropImageFromUnsplashT env s cropName with ⟨e, s1, n⟩
  cases e <;> exact ⟨_, _, _, rfl⟩

lemma storeWF_cacheImageUrl (env : Env) (s : ImageStore) (cropName url : String)
    (h : storeWF s) (hu : url ≠ "") : storeWF (cacheImageUrl env s cropName url).2 := by
  unfold cacheImageUrl cacheImageUrlT
  by_cases hset : env.setItemThrows
  · simpa [hset] using h
  · simpa [hset] using storeWF_setItem s (cacheKey cropName) ⟨url, env.now⟩ h hu

lemma storeWF_fetchPexels (env : Env) (s : ImageStore) (cropName : String)
    (h : storeWF s) : storeWF (fetchCropImageFromPexels env s cropName).2.1 := by
  rcases hl : getCachedImageUrl env s cropName with ⟨e, s1⟩
  have h1 : storeWF s1 := by
    have h2 := storeWF_gciu env s cropName h
    rw [hl] at h2
    exact h2
  unfold fetchCropImageFromPexels fetchCropImageFromPexelsT
  rw [hl]
  cases e with
  | error err => simpa using h1
  | ok r =>
    by_cases htr : truthy r = true
    · simpa [htr] using h1
    · have htr2 : truthy r = false := by simpa using htr
      by_cases hk : (env.pexelsKey == PEXELS_KEY_PLACEHOLDER) = true
      · simpa [htr2, hk] using h1
      · have hk2 : (env.pexelsKey == PEXELS_KEY_PLACEHOLDER) = false := by simpa using hk
        cases ho : env.pexelsOutcome with
        | throws => simpa [htr2, hk2] using h1
        | response ok2 firstUrl =>
          cases ok2 with
          | false => simpa [htr2, hk2] using h1
          | true =>
            by_cases hi : (firstUrl.getD "" != "") = true
            · have hwf2 := storeWF_cacheImageUrl env s1 cropName (firstUrl.getD "") h1
                (by simpa using hi)
              rcases hc : cacheImageUrl env s1 cropName (firstUrl.getD "") with ⟨ec, s2⟩
              rw [hc] at hwf2
              cases ec <;> simpa [htr2, hk2, hi, hc] using hwf2
            · have hi2 : (firstUrl.getD "" != "") = false := by simpa using hi
              simpa [htr2, hk2, hi2] using h1

lemma storeWF_fetchUnsplash (env : Env) (s : ImageStore) (cropName : String)
    (h : storeWF s) : storeWF (fetchCropImageFromUnsplash env s cropName).2.1 := by
  rcases hl : getCachedImageUrl env s cropName with ⟨e, s1⟩
  have h1 : storeWF s1 := by
    have h2 := storeWF_gciu env s cropName h
    rw [hl] at h2
    exact h2
  unfold fetchCropImageFromUnsplash fetchCropImageFromUnsplashT
  rw [hl]
  cases e with
  | error err => simpa using h1
  | ok r =>
    by_cases htr : truthy r = true
    · simpa [htr] using h1
    · have htr2 : truthy r = false := by simpa using htr
      by_cases hk : (env.unsplashKey == UNSPLASH_KEY_PLACEHOLDER) = true
      · simpa [htr2, hk] using h1
      · have hk2 : (env.unsplashKey == UNSPLASH_KEY_PLACEHOLDER) = false := by simpa using hk
        cases ho : env.unsplashOutcome with
        | throws => simpa [htr2, hk2] using h1
        | response ok2 firstUrl =>
          cases ok2 with
          | false => simpa [htr2, hk2] using h1
          | true =>
            by_cases hi : (firstUrl.getD "" != "") = true
            · have hwf2 := storeWF_cacheImageUrl env s1 cropName (firstUrl.getD "") h1
                (by simpa using hi)
              rcases hc : cacheImageUrl env s1 cropName (firstUrl.getD "") with ⟨ec, s2⟩
              rw [hc] at hwf2
              cases ec <;> simpa [htr2, hk2, hi, hc] using hwf2
            · have hi2 : (firstUrl.getD "" != "") = false := by simpa using hi
              simpa [htr2, hk2, hi2] using h1

lemma storeWF_getCropImage (env : Env) (s : ImageStore) (cropName : String)
    (h : storeWF s) : storeWF (getCropImage env s cropName).2.1 := by
  rcases hl : getCachedImageUrl env s cropName with ⟨e, s1⟩
  have h1 : storeWF s1 := by
    have h2 := storeWF_gciu env s cropName h
    rw [hl] at h2
    exact h2
  unfold getCropImage
  rw [hl]
  cases e with
  | error err => simpa using h1
  | ok r =>
    by_cases htr : truthy r = true
    · simpa [htr] using h1
    · have htr2 : truthy r = false := by simpa using htr
      rcases hp : fetchCropImageFromPexels env s1 cropName with ⟨e2, s2, n2⟩
      have h2 : storeWF s2 := by
        have h3 := storeWF_fetchPexels env s1 cropName h1
        rw [hp] at h3
        exact h3
      cases e2 with
      | error err => simpa [htr2, hp] using h2
      | ok pu =>
        by_cases hpu : (pu != "") = true
        · simpa [htr2, hp, hpu] using h2
        · have hpu2 : (pu != "") = false := by simpa using hpu
          rcases hu : fetchCropImageFromUnsplash env s2 cropName with ⟨e3, s3, n3⟩
          have h3 : storeWF s3 := by
            have h4 := storeWF_fetchUnsplash env s2 cropName h2
            rw [hu] at h4
            exact h4
          cases e3 with
          | error err => simpa [htr2, hp, hpu2, hu] using h3
          | ok uu =>
            by_cases huu : (uu != "") = true
            · simpa [htr2, hp, hpu2, hu, huu] using h3
            · have huu2 : (uu != "") = false := by simpa using huu
              simpa [htr2, hp, hpu2, hu, huu2] using h3

end AiCrop

namespace AiCrop

lemma isCacheValid_self (t : Int) : isCacheValid t t = true := by
  simp only [isCacheValid, CACHE_EXPIRY_DAYS, sub_self, decide_eq_true_eq]
  norm_num

/-- After a resolution that returned a non-empty URL (with reliable
reads and writes), the resulting store holds a fresh valid entry whose
URL is the returned one. -/
lemma success_entry (env : Env) (s : ImageStore) (cropName u : String)
    (s1 : ImageStore) (n : Nat)
    (hg : env.getItemThrows = false) (hset : env.setItemThrows = false)
    (h : getCropImage env s cropName = (.ok u, s1, n)) (hu : u ≠ "") :
    ∃ c, getItem s1 (cacheKey cropName) = some c ∧ c.url = u ∧
      isCacheValid env.now c.timestamp = true := by
  rcases getCropImage_cases env s cropName hg with ⟨c, hi, hv, hcu, he⟩ | ⟨s2, hs2, hn, he⟩
  · rw [he] at h
    have hs : s = s1 := congrArg (fun x => x.2.1) h
    have hurl : c.url = u := Except.ok.inj (congrArg Prod.fst h)
    exact ⟨c, hs ▸ hi, hurl, hv⟩
  · rw [he] at h
    have hs : fallbackStoreSpec env s2 cropName = s1 := congrArg (fun x => x.2.1) h
    have hurl : fallbackSpec env = u := Except.ok.inj (congrArg Prod.fst h)
    by_cases hp : pexelsAttemptSpec env = ""
    · by_cases hq : unsplashAttemptSpec env = ""
      · exfalso
        apply hu
        rw [← hurl]
        simp [fallbackSpec, hp, hq]
      · have hfb : fallbackSpec env = unsplashAttemptSpec env := by
          simp [fallbackSpec, hp, hq]
        have hss : s1 = setItem s2 (cacheKey cropName)
            ⟨unsplashAttemptSpec env, env.now⟩ := by
          rw [← hs]
          simp [fallbackStoreSpec, hp, hq, hset]
        refine ⟨⟨unsplashAttemptSpec env, env.now⟩, ?_, ?_, isCacheValid_self env.now⟩
        · rw [hss]
          exact getItem_setItem_self s2 (cacheKey cropName) _
        · rw [← hurl, hfb]
    · have hfb : fallbackSpec env = pexelsAttemptSpec env := by
        simp [fallbackSpec, hp]
      have hss : s1 = setItem s2 (cacheKey cropName) ⟨pexelsAttemptSpec env, env.now⟩ := by
        rw [← hs]
        simp [fallbackStoreSpec, hp, hset]
      refine ⟨⟨pexelsAttemptSpec env, env.now⟩, ?_, ?_, isCacheValid_self env.now⟩
      · rw [hss]
        exact getItem_setItem_self s2 (cacheKey cropName) _
      · rw [← hurl, hfb]

end AiCrop

namespace AiCrop

/-- A lookup can only answer with `some v` out of a currently valid
entry whose URL is `v`. -/
lemma gciu_some_url (env : Env) (s : ImageStore) (cropName : String)
    (v : String) (s1 : ImageStore)
    (h : getCachedImageUrl env s cropName = (.ok (some v), s1)) :
    ∃ c, getItem s (cacheKey cropName) = some c ∧ c.url = v := by
  by_cases hg : env.getItemThrows = true
  · rw [gciu_getThrows env s cropName hg] at h
    simp at h
  · have hg2 : env.getItemThrows = false := by simpa using hg
    cases hi : getItem s (cacheKey cropName) with
    | none =>
      rw [gciu_none env s cropName hg2 hi] at h
      simp at h
    | some c =>
      by_cases hv : isCacheValid env.now c.timestamp
      · rw [gciu_valid env s cropName c hg2 hi hv] at h
        have h1 : c.url = v := by
          have h2 := congrArg Prod.fst h
          simpa using h2
        exact ⟨c, rfl, h1⟩
      · by_cases hrm : env.removeItemThrows
        · rw [gciu_expired_keep env s cropName c hg2 hi (by simpa using hv) hrm] at h
          simp at h
        · rw [gciu_expired_remove env s cropName c hg2 hi (by simpa using hv)
            (by simpa using hrm)] at h
          simp at h

end AiCrop

/-! ## Claim theorems for the image resolver -/

namespace AiCrop

/-- C1: for every crop name, getCropImage follows the fallback chain in
order, short-circuiting on first success: the locally cached URL when a
non-expired entry exists, otherwise the first Pexels result when
non-empty, otherwise the first Unsplash result when non-empty,
otherwise the empty string (stated as equality with the chain written
from the spec's words, assuming reliable cache reads and the cache
invariant that stored URLs are non-empty). -/
theorem getCropImage_follows_fallback_chain (env : Env) (s : ImageStore)
    (cropName : String) (hg : env.getItemThrows = false) (hwf : storeWF s) :
    (getCropImage env s cropName).1 = .ok (resolveImageSpec env s cropName) := by
  rcases getCropImage_cases env s cropName hg with ⟨c, hi, hv, hu, he⟩ | ⟨s1, hs1, hn, he⟩
  · rw [he]
    simp [resolveImageSpec, hi, hv]
  · rw [he]
    cases hi : getItem s (cacheKey cropName) with
    | none => simp [resolveImageSpec, hi]
    | some c =>
      by_cases hv : isCacheValid env.now c.timestamp
      · have hu := url_ne_empty_of_getItem s (cacheKey cropName) c hwf hi
        have hhit := getCropImage_hit env s cropName c hg hi hv hu
        rw [he] at hhit
        have hfb : fallbackSpec env = c.url := Except.ok.inj (congrArg Prod.fst hhit)
        simp [resolveImageSpec, hi, hv, hfb]
      · simp [resolveImageSpec, hi, hv]

/-- C1 witness: a configured Pexels provider succeeding on an empty
cache makes both sides evaluate to the fetched URL. -/
theorem getCropImage_follows_fallback_chain_witness :
    storeWF ([] : ImageStore)
    ∧ (getCropImage envPexelsOk [] "Rice").1 =
        .ok (resolveImageSpec envPexelsOk [] "Rice")
    ∧ resolveImageSpec envPexelsOk [] "Rice" = "https://images.pexels.com/rice.jpg" :=
  ⟨fun p hp => absurd hp (List.not_mem_nil p),
   getCropImage_follows_fallback_chain envPexelsOk [] "Rice" rfl
     (fun p hp => absurd hp (List.not_mem_nil p)),
   rfl⟩

/-- C2: for every crop name and every outcome of the cache, storage and
provider calls (throwing fetches, non-ok responses, empty results,
unconfigured keys, throwing storage operations), getCropImage
terminates normally with `.ok` of some string: no exception reaches the
caller. -/
theorem getCropImage_total_no_exception (env : Env) (s : ImageStore)
    (cropName : String) :
    ∃ url s1 n, getCropImage env s cropName = (Except.ok url, s1, n) := by
  by_cases hg : env.getItemThrows = true
  · have hn : NoHitAt env s cropName := ⟨none, gciu_getThrows env s cropName hg, rfl⟩
    exact ⟨fallbackSpec env, _, _, getCropImage_of_nohit env s cropName hn⟩
  · have hg2 : env.getItemThrows = false := by simpa using hg
    rcases getCropImage_cases env s cropName hg2 with ⟨c, hi, hv, hu, he⟩ | ⟨s2, hs2, hn, he⟩
    · exact ⟨c.url, s, 0, he⟩
    · exact ⟨fallbackSpec env, _, _, he⟩

/-- C3: with a cached entry of timestamp t present, the lookup returns
the stored URL iff `now - t` is strictly below 7 days in milliseconds;
an entry aged 7 days or more yields null. -/
theorem getCachedImageUrl_seven_day_window (env : Env) (s : ImageStore)
    (cropName : String) (c : CachedImage)
    (hg : env.getItemThrows = false)
    (hi : getItem s (cacheKey cropName) = some c) :
    ((getCachedImageUrl env s cropName).1 = .ok (some c.url) ↔
      env.now - c.timestamp < 7 * 24 * 60 * 60 * 1000)
    ∧ (¬ env.now - c.timestamp < 7 * 24 * 60 * 60 * 1000 →
       (getCachedImageUrl env s cropName).1 = .ok none) := by
  have hiff : isCacheValid env.now c.timestamp = true ↔
      env.now - c.timestamp < 7 * 24 * 60 * 60 * 1000 := by
    simp [isCacheValid, CACHE_EXPIRY_DAYS]
  by_cases hv : isCacheValid env.now c.timestamp = true
  · rw [gciu_valid env s cropName c hg hi hv]
    exact ⟨⟨fun _ => hiff.mp hv, fun _ => rfl⟩, fun hctr => absurd (hiff.mp hv) hctr⟩
  · have hv2 : isCacheValid env.now c.timestamp = false := by simpa using hv
    have hnlt : ¬ env.now - c.timestamp < 7 * 24 * 60 * 60 * 1000 := by
      intro hlt
      rw [hiff.mpr hlt] at hv2
      exact absurd hv2 (by simp)
    by_cases hrm : env.removeItemThrows
    · rw [gciu_expired_keep env s cropName c hg hi hv2 hrm]
      refine ⟨⟨fun hh => ?_, fun hlt => absurd hlt hnlt⟩, fun _ => rfl⟩
      exact absurd hh (by simp)
    · rw [gciu_expired_remove env s cropName c hg hi hv2 (by simpa using hrm)]
      refine ⟨⟨fun hh => ?_, fun hlt => absurd hlt hnlt⟩, fun _ => rfl⟩
      exact absurd hh (by simp)

/-- C3 witness: a fresh entry (age 0) is returned; the same entry read
exactly at the 7-day boundary is treated as absent. -/
theorem getCachedImageUrl_seven_day_window_witness :
    (getCachedImageUrl envUnconfigured riceStore "Rice").1 =
      .ok (some "https://images.pexels.com/rice.jpg")
    ∧ (getCachedImageUrl envSevenDays riceStore "Rice").1 = .ok none :=
  ⟨((getCachedImageUrl_seven_day_window envUnconfigured riceStore "Rice"
      ⟨"https://images.pexels.com/rice.jpg", 0⟩ rfl rfl).1).mpr (by norm_num [envUnconfigured]),
   (getCachedImageUrl_seven_day_window envSevenDays riceStore "Rice"
      ⟨"https://images.pexels.com/rice.jpg", 0⟩ rfl rfl).2 (by norm_num [envSevenDays])⟩

end AiCrop

namespace AiCrop

/-- C6: when a resolution returns a non-empty URL (with reliable cache
reads and writes), an immediately following resolution of the same crop
returns the same URL from the cache, leaves the store untouched and
makes zero network calls. -/
theorem getCropImage_second_call_cached (env : Env) (s : ImageStore)
    (cropName u : String) (s1 : ImageStore) (n : Nat)
    (hg : env.getItemThrows = false) (hset : env.setItemThrows = false)
    (h : getCropImage env s cropName = (.ok u, s1, n)) (hu : u ≠ "") :
    getCropImage env s1 cropName = (.ok u, s1, 0) := by
  obtain ⟨c, hi, hcu, hv⟩ := success_entry env s cropName u s1 n hg hset h hu
  have h2 := getCropImage_hit env s1 cropName c hg hi hv (by rw [hcu]; exact hu)
  rw [hcu] at h2
  exact h2

/-- C6 witness: after a successful Pexels resolution from the empty
store, the second call serves the cached URL with zero network calls. -/
theorem getCropImage_second_call_cached_witness :
    getCropImage envPexelsOk
        (setItem [] (cacheKey "Rice") ⟨"https://images.pexels.com/rice.jpg", 0⟩)
        "Rice" =
      (.ok "https://images.pexels.com/rice.jpg",
       setItem [] (cacheKey "Rice") ⟨"https://images.pexels.com/rice.jpg", 0⟩, 0) :=
  getCropImage_second_call_cached envPexelsOk [] "Rice"
    "https://images.pexels.com/rice.jpg"
    (setItem [] (cacheKey "Rice") ⟨"https://images.pexels.com/rice.jpg", 0⟩) 1
    rfl rfl rfl (by decide)

/-- C9: the cache never gains an entry with an empty URL (every run of
the resolver preserves the invariant), and a resolution that came back
empty leaves the crop uncached, so the next lookup misses and the
provider chain is re-attempted (no negative caching). -/
theorem imageCache_no_empty_url_invariant (env : Env) (s : ImageStore)
    (cropName : String) (hwf : storeWF s) :
    storeWF (getCropImage env s cropName).2.1
    ∧ (env.getItemThrows = false → (getCropImage env s cropName).1 = .ok "" →
       (getCachedImageUrl env (getCropImage env s cropName).2.1 cropName).1 =
         .ok none) := by
  refine ⟨storeWF_getCropImage env s cropName hwf, fun hg hres => ?_⟩
  rcases getCropImage_cases env s cropName hg with ⟨c, hi, hv, hcu, he⟩ | ⟨s2, hs2, hn, he⟩
  · rw [he] at hres
    exact absurd (Except.ok.inj hres) hcu
  · have hfb : fallbackSpec env = "" := by
      rw [he] at hres
      exact Except.ok.inj hres
    have hp : pexelsAttemptSpec env = "" := by
      by_contra hp
      simp [fallbackSpec, hp] at hfb
    have hq : unsplashAttemptSpec env = "" := by
      by_contra hq
      simp [fallbackSpec, hp, hq] at hfb
    have hstore : fallbackStoreSpec env s2 cropName = s2 := by
      simp [fallbackStoreSpec, hp, hq]
    have hwf2 : storeWF s2 := by
      rcases hs2 with h2 | h2 <;> rw [h2]
      · exact hwf
      · exact storeWF_removeItem s _ hwf
    obtain ⟨r, hr, htr⟩ := hn
    rw [he]
    have hsimp : (((Except.ok (fallbackSpec env) : Except Unit String),
        fallbackStoreSpec env s2 cropName, fallbackCalls env)).2.1 =
        fallbackStoreSpec env s2 cropName := rfl
    rw [hsimp, hstore, hr]
    cases r with
    | none => rfl
    | some v =>
      exfalso
      obtain ⟨c, hic, hcv⟩ := gciu_some_url env s2 cropName v s2 hr
      have hne := url_ne_empty_of_getItem s2 (cacheKey cropName) c hwf2 hic
      have hv0 : v = "" := by simpa [truthy] using htr
      rw [hcv, hv0] at hne
      exact hne rfl

/-- C9 witness: with both providers unconfigured the resolution of an
uncached crop returns "", the store stays well-formed (empty) and the
following lookup still misses. -/
theorem imageCache_no_empty_url_invariant_witness :
    storeWF ([] : ImageStore)
    ∧ (storeWF (getCropImage envUnconfigured [] "Rice").2.1
       ∧ (envUnconfigured.getItemThrows = false →
          (getCropImage envUnconfigured [] "Rice").1 = .ok "" →
          (getCachedImageUrl envUnconfigured
             (getCropImage envUnconfigured [] "Rice").2.1 "Rice").1 = .ok none)) :=
  ⟨fun p hp => absurd hp (List.not_mem_nil p),
   imageCache_no_empty_url_invariant envUnconfigured [] "Rice"
     (fun p hp => absurd hp (List.not_mem_nil p))⟩

/-- C10: with reliable storage, the lookup mutates the store exactly on
an expired entry: a missing entry and a valid hit leave the store
unchanged, an expired entry is deleted (and really absent afterwards)
before null is returned. -/
theorem getCachedImageUrl_frame_effect (env : Env) (s : ImageStore)
    (cropName : String) (hg : env.getItemThrows = false)
    (hrm : env.removeItemThrows = false) :
    (getItem s (cacheKey cropName) = none →
       getCachedImageUrl env s cropName = (.ok none, s))
    ∧ (∀ c, getItem s (cacheKey cropName) = some c →
        isCacheValid env.now c.timestamp = true →
        getCachedImageUrl env s cropName = (.ok (some c.url), s))
    ∧ (∀ c, getItem s (cacheKey cropName) = some c →
        isCacheValid env.now c.timestamp = false →
        getCachedImageUrl env s cropName =
          (.ok none, removeItem s (cacheKey cropName))
        ∧ getItem (removeItem s (cacheKey cropName)) (cacheKey cropName) = none) :=
  ⟨fun h => gciu_none env s cropName hg h,
   fun c h hv => gciu_valid env s cropName c hg h hv,
   fun c h hv => ⟨gciu_expired_remove env s cropName c hg h hv hrm,
                  getItem_removeItem_self s (cacheKey cropName)⟩⟩

/-- C10 witness: reading the Rice entry exactly 7 days after it was
written removes it from the store and returns null. -/
theorem getCachedImageUrl_frame_effect_witness :
    getCachedImageUrl envSevenDays riceStore "Rice" =
      (.ok none, removeItem riceStore (cacheKey "Rice"))
    ∧ getItem (removeItem riceStore (cacheKey "Rice")) (cacheKey "Rice") = none :=
  (getCachedImageUrl_frame_effect envSevenDays riceStore "Rice" rfl rfl).2.2
    ⟨"https://images.pexels.com/rice.jpg", 0⟩ rfl (by decide)

end AiCrop

/-! ## Claim theorem for the local detection cache -/

namespace AiCrop.OfflineStorage

lemma take_append_take {α : Type} (a b : List α) (n : Nat) :
    (a ++ b.take n).take n = (a ++ b).take n := by
  rw [List.take_append_eq_append_take, List.take_append_eq_append_take,
    List.take_take, Nat.min_eq_left (Nat.sub_le n a.length)]

lemma recordAll_eq {D : Type} (ds : List D) :
    ∀ s : Option (List D), (getCachedDetections s).length ≤ 50 →
      getCachedDetections (recordAll s ds) =
        (ds.reverse ++ getCachedDetections s).take 50 := by
  induction ds with
  | nil =>
    intro s h
    simp [recordAll, List.take_of_length_le h]
  | cons d tl ih =>
    intro s h
    have h2 : (getCachedDetections (addCachedDetection s d)).length ≤ 50 := by
      simp only [addCachedDetection, getCachedDetections, Option.getD_some]
      exact List.length_take_le 50 _
    have hstep : recordAll s (d :: tl) = recordAll (addCachedDetection s d) tl := rfl
    rw [hstep, ih (addCachedDetection s d) h2]
    have hget : getCachedDetections (addCachedDetection s d) =
        (d :: getCachedDetections s).take 50 := rfl
    rw [hget, take_append_take, List.reverse_cons, List.append_assoc]
    rfl

/-- C4: after any sequence of addCachedDetection calls starting from
the empty local detection cache, the stored list is exactly the
insertion sequence reversed (newest first) truncated to its 50 most
recent entries, and in particular never exceeds 50 entries. -/
theorem cachedDetections_bounded_newest_first (D : Type) (ds : List D) :
    getCachedDetections (recordAll (none : Option (List D)) ds) =
      ds.reverse.take 50
    ∧ (getCachedDetections (recordAll (none : Option (List D)) ds)).length ≤ 50 := by
  have h := recordAll_eq ds none (by simp [getCachedDetections])
  simp only [getCachedDetections, Option.getD_none, List.append_nil] at h
  refine ⟨h, ?_⟩
  simp only [getCachedDetections]
  rw [h]
  exact List.length_take_le 50 _

end AiCrop.OfflineStorage

/-! ## Claim theorem for the backend detection service (spec-modelled) -/

namespace AiCrop.Backend

/-- C5: every successful detect call returns a record with all three
advice lists present: as long as the required scalar fields are there,
parsing succeeds, each present list is carried over, and each missing
list is defaulted to empty instead of failing the request. -/
theorem parseModelResponse_defaults_missing_lists (raw : RawModelResponse)
    (dn : String) (cs : Rat)
    (hd : raw.disease_name = some dn) (hc : raw.confidence_score = some cs) :
    ∃ rec, parseModelResponse raw = some rec
      ∧ rec.treatment_steps = raw.treatment_steps.getD []
      ∧ rec.fertilizer_suggestions = raw.fertilizer_suggestions.getD []
      ∧ rec.prevention_tips = raw.prevention_tips.getD []
      ∧ (raw.treatment_steps = none → rec.treatment_steps = [])
      ∧ (raw.fertilizer_suggestions = none → rec.fertilizer_suggestions = [])
      ∧ (raw.prevention_tips = none → rec.prevention_tips = []) := by
  refine ⟨⟨dn, cs, raw.treatment_steps.getD [], raw.fertilizer_suggestions.getD [],
    raw.prevention_tips.getD []⟩, ?_, rfl, rfl, rfl, ?_, ?_, ?_⟩
  · simp [parseModelResponse, hd, hc]
  · intro h
    simp [h]
  · intro h
    simp [h]
  · intro h
    simp [h]

/-- C5 witness: a model response missing the treatment and prevention
lists still parses, with those lists defaulted to empty. -/
theorem parseModelResponse_defaults_missing_lists_witness :
    ∃ rec,
      parseModelResponse
          ⟨some "Leaf Blight", some (9 / 10 : Rat), none, some ["urea spray"], none⟩ =
        some rec
      ∧ rec.treatment_steps =
          (none : Option (List String)).getD []
      ∧ rec.fertilizer_suggestions = (some ["urea spray"] : Option (List String)).getD []
      ∧ rec.prevention_tips = (none : Option (List String)).getD []
      ∧ ((none : Option (List String)) = none → rec.treatment_steps = [])
      ∧ ((some ["urea spray"] : Option (List String)) = none →
          rec.fertilizer_suggestions = [])
      ∧ ((none : Option (List String)) = none → rec.prevention_tips = []) :=
  parseModelResponse_defaults_missing_lists
    ⟨some "Leaf Blight", some (9 / 10 : Rat), none, some ["urea spray"], none⟩
    "Leaf Blight" (9 / 10 : Rat) rfl rfl

end AiCrop.Backend

/-! ## Claim theorem for the detection client -/

namespace AiCrop.AnalysisScreen

lemma errorMessage_ne_empty (detail : Option String) (msg : String) :
    errorMessage detail msg ≠ "" := by
  unfold errorMessage
  cases detail with
  | none =>
    by_cases hm : (msg != "") = true
    · simp only [hm, if_true]
      simpa using hm
    · have hm2 : (msg != "") = false := by simpa using hm
      simp only [hm2, Bool.false_eq_true, if_false]
      simp
  | some d =>
    by_cases hd : (d != "") = true
    · simp only [hd, if_true]
      simpa using hd
    · have hd2 : (d != "") = false := by simpa using hd
      simp only [hd2, Bool.false_eq_true, if_false]
      by_cases hm : (msg != "") = true
      · simp only [hm, if_true]
        simpa using hm
      · have hm2 : (msg != "") = false := by simpa using hm
        simp only [hm2, Bool.false_eq_true, if_false]
        simp

lemma analyzeImage_congr_result {σ : Type} (o : DetectOutcome)
    (st1 st2 : AnalysisState) (stor : σ) (h : st1.result = st2.result) :
    analyzeImage o st1 stor = analyzeImage o st2 stor := by
  cases o with
  | success data => cases data <;> simp [analyzeImage, h]
  | failure detail msg => simp [analyzeImage, h]

/-- C7: the detect request is issued with a 60-second timeout; on any
failure outcome the client leaves every persisted store untouched,
clears the spinner, keeps the previous result and surfaces a non-empty
user-facing error; and retrying (re-invoking analyzeImage from the
post-failure state) behaves exactly like invoking it from the original
state. -/
theorem analyzeImage_timeout_failure_frame :
    ANALYZE_TIMEOUT_MS = 60 * 1000
    ∧ (∀ (σ : Type) (stor : σ) (st : AnalysisState) (detail : Option String)
        (msg : String),
        (analyzeImage (.failure detail msg) st stor).2 = stor
        ∧ ((analyzeImage (.failure detail msg) st stor).1).loading = false
        ∧ ((analyzeImage (.failure detail msg) st stor).1).error ≠ ""
        ∧ ((analyzeImage (.failure detail msg) st stor).1).result = st.result)
    ∧ (∀ (σ : Type) (stor : σ) (st : AnalysisState) (o : DetectOutcome)
        (detail : Option String) (msg : String),
        analyzeImage o ((analyzeImage (.failure detail msg) st stor).1) stor =
          analyzeImage o st stor) :=
  ⟨rfl,
   fun _ _ _ detail msg =>
     ⟨rfl, rfl, errorMessage_ne_empty detail msg, rfl⟩,
   fun _ stor st o _ _ =>
     analyzeImage_congr_result o _ st stor rfl⟩

end AiCrop.AnalysisScreen

/-! ## Claim theorems for the backend URL resolution -/

namespace AiCrop.Config

/-- C8 counterexample: the history screen does not fall back to a local
default; with no configuration at all its module-load resolution
throws, so startup does fail for one of the backend-contacting
screens. -/
theorem historyBackendUrl_unset_fails :
    historyBackendUrl ⟨none, none⟩ =
      .error "EXPO_PUBLIC_BACKEND_URL is not configured" := rfl

/-- C8 (amended): with no backend URL configured anywhere, the
detection and weather screens and the app.config.js extra field all
resolve to the safe local default, while the history screen throws at
module load. -/
theorem backendUrl_default_resolution (e : ClientEnv)
    (h1 : e.expoExtraBackendUrl = none) (h2 : e.processEnvBackendUrl = none) :
    analysisBackendUrl e = DEFAULT_BACKEND_URL
    ∧ weatherBackendUrl e = DEFAULT_BACKEND_URL
    ∧ appConfigExtraBackendUrl e.processEnvBackendUrl = DEFAULT_BACKEND_URL
    ∧ historyBackendUrl e = .error "EXPO_PUBLIC_BACKEND_URL is not configured" := by
  simp [analysisBackendUrl, weatherBackendUrl, appConfigExtraBackendUrl,
    historyBackendUrl, jsOrStr, h1, h2]

/-- C8 witness: the amended statement evaluated on the completely
unconfigured environment. -/
theorem backendUrl_default_resolution_witness :
    analysisBackendUrl ⟨none, none⟩ = DEFAULT_BACKEND_URL
    ∧ weatherBackendUrl ⟨none, none⟩ = DEFAULT_BACKEND_URL
    ∧ appConfigExtraBackendUrl (ClientEnv.mk none none).processEnvBackendUrl =
        DEFAULT_BACKEND_URL
    ∧ historyBackendUrl ⟨none, none⟩ =
        .error "EXPO_PUBLIC_BACKEND_URL is not configured" :=
  backendUrl_default_resolution ⟨none, none⟩ rfl rfl

end AiCrop.Config
